import Mathlib

/-!
Verification development for the teleport-transactions coinswap engine.

Shallow embedding of the protocol-relevant functions of the repository:
utility helpers (utill.rs), taker and maker configuration loading
(taker/config.rs, maker/config.rs), the MuSig2 key-aggregation order used by
the taproot signing helpers (protocol/taproot.rs), and the transaction
builder Wallet::create_direct_send (wallet/direct_send.rs).

Machine integers are modelled as Nat with explicit reduction modulo 2^64
where Rust u64 wrap-around (release semantics) is reachable.  A Rust panic
(unwrap on None, failed parse) is modelled by an Option-valued function
returning none.  Parts of the repository that the claims need but that are
absent from the source snapshot (the TOML parser parse_toml, the
TeleportError From conversion for io errors, the wire-message type
definitions and their serde instances, the SwapCoin trait implementations,
and the taker's per-hop locktime assignment) are modelled from the
specification; each such definition carries a doc comment saying so.
-/

namespace Teleport

/-- Modulus of Rust u64 arithmetic. -/
def U64MOD : Nat := 2 ^ 64

/-- Decidable equality for Except results, used to evaluate concrete
outcomes in witnesses. -/
instance exceptDecEq {ε α : Type} [DecidableEq ε] [DecidableEq α] :
    DecidableEq (Except ε α) := fun x y =>
  match x, y with
  | Except.ok a, Except.ok b =>
    if h : a = b then Decidable.isTrue (by rw [h])
    else Decidable.isFalse (fun he => h (by cases he; rfl))
  | Except.error a, Except.error b =>
    if h : a = b then Decidable.isTrue (by rw [h])
    else Decidable.isFalse (fun he => h (by cases he; rfl))
  | Except.ok _, Except.error _ =>
    Decidable.isFalse (fun he => Except.noConfusion he)
  | Except.error _, Except.ok _ =>
    Decidable.isFalse (fun he => Except.noConfusion he)

/-- Modelled from the spec: error taxonomy of section 7 (error.rs is not in
the source snapshot).  Network carries an io-level description, Protocol a
static message, matching the uses TeleportError.Network(Box(io::Error)) and
TeleportError.Protocol("...") visible in utill.rs. -/
inductive TeleportError where
  | Network (msg : String)
  | Protocol (msg : String)
deriving DecidableEq, Repr

/-- Modelled from the spec, section 4.2 (swapcoin.rs is not in the source
snapshot): an incoming swapcoin stores the counterparty pubkey advertised
earlier and, once handed over, the matching private key.  Keys and pubkeys
are abstracted to Nat. -/
structure IncomingSwapCoinM where
  other_pubkey : Nat
  my_privkey : Option Nat
deriving DecidableEq, Repr

/-- Modelled from the spec, section 4.2: apply_privkey re-derives the public
key from the supplied key (derivation abstracted as pubOf) and compares it
with the advertised pubkey; on match it stores the key, on mismatch it fails
without touching the coin. -/
def apply_privkey (pubOf : Nat → Nat) (s : IncomingSwapCoinM) (k : Nat) :
    Option IncomingSwapCoinM :=
  if pubOf k = s.other_pubkey then some { s with my_privkey := some k } else none

/-- Embedding of check_and_apply_maker_private_keys (utill.rs lines 61-71).
The Rust function is generic over S : SwapCoin; here the per-coin
application is a parameter.  It walks swapcoins.iter_mut().zip(keys): the
zip stops at the shorter list, each successful application replaces the coin
in place, and the first failure aborts with Protocol "wrong privkey",
leaving the remaining coins untouched.  The returned pair is (function
result, final state of the swapcoin vector). -/
def check_and_apply_maker_private_keys {S K : Type} (app : S → K → Option S) :
    List S → List K → Except TeleportError Unit × List S
  | [], _ => (Except.ok (), [])
  | c :: cs, [] => (Except.ok (), c :: cs)
  | c :: cs, k :: ks =>
    match app c k with
    | none => (Except.error (TeleportError.Protocol "wrong privkey"), c :: cs)
    | some c2 =>
      match check_and_apply_maker_private_keys app cs ks with
      | (r, rest) => (r, c2 :: rest)

/-- Embedding of calculate_coinswap_fee (utill.rs lines 542-552; the
function body is present in the source file as commented-out code and
matches the spec formula).  All five parameters are u64; the two
multiplications wrap modulo 2^64 (Rust release semantics), the divisions
are integer divisions by 1_000_000_000. -/
def calculate_coinswap_fee (absolute_fee_sat amount_relative_fee_ppb
    time_relative_fee_ppb total_funding_amount time_in_blocks : Nat) : Nat :=
  (absolute_fee_sat
    + total_funding_amount * amount_relative_fee_ppb % U64MOD / 1000000000
    + time_in_blocks * time_relative_fee_ppb % U64MOD / 1000000000) % U64MOD

/-- Constant REFUND_LOCKTIME from taker/config.rs line 7 (in blocks). -/
def REFUND_LOCKTIME : Nat := 48

/-- Constant REFUND_LOCKTIME_STEP from taker/config.rs line 8 (in blocks). -/
def REFUND_LOCKTIME_STEP : Nat := 48

/-- Embedding of struct TakerConfig (taker/config.rs lines 34-47).  Field
widths in Rust: refund_locktime and refund_locktime_step are u16,
first_connect_attempts, reconnect_attempts and
short_long_sleep_delay_transition are u32, the rest are u64. -/
structure TakerConfig where
  refund_locktime : Nat
  refund_locktime_step : Nat
  first_connect_attempts : Nat
  first_connect_sleep_delay_sec : Nat
  first_connect_attempt_timeout_sec : Nat
  reconnect_attempts : Nat
  reconnect_short_sleep_delay : Nat
  reconnect_long_sleep_delay : Nat
  short_long_sleep_delay_transition : Nat
  reconnect_attempt_timeout_sec : Nat
deriving DecidableEq, Repr

/-- Embedding of TakerConfig::default (taker/config.rs lines 49-64). -/
def TakerConfig.default : TakerConfig :=
  { refund_locktime := REFUND_LOCKTIME
    refund_locktime_step := REFUND_LOCKTIME_STEP
    first_connect_attempts := 5
    first_connect_sleep_delay_sec := 1
    first_connect_attempt_timeout_sec := 20
    reconnect_attempts := 3200
    reconnect_short_sleep_delay := 10
    reconnect_long_sleep_delay := 60
    short_long_sleep_delay_transition := 60
    reconnect_attempt_timeout_sec := 300 }

/-- Modelled from the spec, sections 3 and 4.4 (the taker's route-building
code that assigns per-hop contract locktimes is not in the source snapshot;
taker/config.rs only supplies the parameters): in a route of n hops, hop i
(counted 0-based from the Taker) receives refund locktime
refund_locktime + refund_locktime_step * (n - i), so the locktime decreases
by exactly one step per hop moving away from the Taker. -/
def hop_refund_locktime (cfg : TakerConfig) (n i : Nat) : Nat :=
  cfg.refund_locktime + cfg.refund_locktime_step * (n - i)

/-- Two-element sort as performed by Vec::push, Vec::push, Vec::sort in
protocol/taproot.rs lines 38-41 and 77-80.  Pubkeys are modelled by their
33-byte serialization, on which the library Ord is lexicographic; that
order is abstracted to the Nat order. -/
def sort2 (a b : Nat) : List Nat := if a ≤ b then [a, b] else [b, a]

/-- The ordered key list that nonce_gen (protocol/taproot.rs lines 4-24)
passes to MusigKeyAggCache::new: the two pubkeys in argument order, without
sorting.  MuSig2 key aggregation depends on the position of each key in
this list, so the cache (and the aggregated key) is determined by the
ordered list. -/
def nonce_gen_keyagg (pub_key1 pub_key2 : Nat) : List Nat := [pub_key1, pub_key2]

/-- The ordered key list that partial_signature_gen (protocol/taproot.rs
lines 27-63) passes to MusigKeyAggCache::new: the two pubkeys after
Vec::sort. -/
def partial_signature_gen_keyagg (pub_key1 pub_key2 : Nat) : List Nat :=
  sort2 pub_key1 pub_key2

/-- The ordered key list that musig_signature (protocol/taproot.rs lines
66-99) passes to MusigKeyAggCache::new: the local keypair's public key
(derived from sec_key, derivation abstracted as pubOf) and pub_key2, after
Vec::sort. -/
def musig_signature_keyagg (pubOf : Nat → Nat) (sec_key pub_key2 : Nat) :
    List Nat :=
  sort2 (pubOf sec_key) pub_key2

/- Configuration file loading.  parse_toml is imported by both config
modules but absent from the source snapshot, so its successful result is
modelled abstractly as an association list of sections, each an association
list of string key-value pairs, and the init functions consume that result
directly. -/

/-- Section of a parsed configuration file: key-value pairs. -/
abbrev ConfigSection := List (String × String)

/-- Parsed configuration file: named sections. -/
abbrev ConfigSections := List (String × ConfigSection)

/-- Lookup of a section by name (HashMap::get on the outer map). -/
def sections_get (secs : ConfigSections) (name : String) : Option ConfigSection :=
  (secs.find? (fun p => p.1 == name)).map (fun p => p.2)

/-- Lookup of a value by key inside a section (HashMap::get). -/
def section_get (sec : ConfigSection) (key : String) : Option String :=
  (sec.find? (fun p => p.1 == key)).map (fun p => p.2)

/-- HashMap::contains_key on a section. -/
def contains_key (sec : ConfigSection) (key : String) : Bool :=
  (section_get sec key).isSome

/-- Value of a key known to be present (get(..).unwrap() under a prior
contains_key check); defaults to the empty string when absent. -/
def getv (sec : ConfigSection) (key : String) : String :=
  (section_get sec key).getD ""

/-- Rust str::parse into an unsigned integer of the given bit width:
the string must be nonempty, consist of decimal digits, and the value must
fit the width. -/
def parse_uint (bits : Nat) (s : String) : Option Nat :=
  if s.data ≠ [] ∧ s.data.all Char.isDigit then
    if s.data.foldl (fun a c => 10 * a + (c.toNat - 48)) 0 < 2 ^ bits then
      some (s.data.foldl (fun a c => 10 * a + (c.toNat - 48)) 0)
    else none
  else none

/-- The key list taker_keys of TakerConfig::init (taker/config.rs lines
90-101), in source order. -/
def taker_keys : List String :=
  ["reconnect_short_sleep_delay", "reconnect_attempts",
   "first_connect_attempt_timeout_sec", "refund_locktime",
   "first_connect_sleep_delay_sec", "reconnect_long_sleep_delay",
   "reconnect_attempt_timeout_sec", "refund_locktime_step",
   "first_connect_attempts", "short_long_sleep_delay_transition"]

/-- Embedding of TakerConfig::init (taker/config.rs lines 67-163) over the
result of parse_toml.  A parse_toml failure, a missing taker_config
section, or any missing key yields the default configuration.  When the
section and all ten keys are present, every value is parsed with
str::parse::<uN>().unwrap(); a value that fails to parse is a panic,
modelled as none. -/
def TakerConfig.init (sections : Except Unit ConfigSections) : Option TakerConfig :=
  match sections with
  | Except.error _ => some TakerConfig.default
  | Except.ok secs =>
    match sections_get secs "taker_config" with
    | none => some TakerConfig.default
    | some sec =>
      if taker_keys.all (fun k => contains_key sec k) then
        match parse_uint 64 (getv sec "reconnect_short_sleep_delay"),
              parse_uint 32 (getv sec "reconnect_attempts"),
              parse_uint 64 (getv sec "first_connect_attempt_timeout_sec"),
              parse_uint 16 (getv sec "refund_locktime"),
              parse_uint 64 (getv sec "first_connect_sleep_delay_sec"),
              parse_uint 64 (getv sec "reconnect_long_sleep_delay"),
              parse_uint 64 (getv sec "reconnect_attempt_timeout_sec"),
              parse_uint 16 (getv sec "refund_locktime_step"),
              parse_uint 32 (getv sec "first_connect_attempts"),
              parse_uint 32 (getv sec "short_long_sleep_delay_transition") with
        | some v1, some v2, some v3, some v4, some v5, some v6, some v7,
          some v8, some v9, some v10 =>
          some { refund_locktime := v4
                 refund_locktime_step := v8
                 first_connect_attempts := v9
                 first_connect_sleep_delay_sec := v5
                 first_connect_attempt_timeout_sec := v3
                 reconnect_attempts := v2
                 reconnect_short_sleep_delay := v1
                 reconnect_long_sleep_delay := v6
                 short_long_sleep_delay_transition := v10
                 reconnect_attempt_timeout_sec := v7 }
        | _, _, _, _, _, _, _, _, _, _ => none
      else some TakerConfig.default

/-- Embedding of struct MakerConfig (maker/config.rs lines 7-34).  port and
min_contract_reaction_time are u16, onion_addrs a string, the rest u64. -/
structure MakerConfig where
  port : Nat
  heart_beat_interval_secs : Nat
  rpc_ping_interval_secs : Nat
  watchtower_ping_interval_secs : Nat
  directory_servers_refresh_interval_secs : Nat
  idle_connection_timeout : Nat
  onion_addrs : String
  absolute_fee_sats : Nat
  amount_relative_fee_ppb : Nat
  time_relative_fee_ppb : Nat
  required_confirms : Nat
  min_contract_reaction_time : Nat
  min_size : Nat
deriving DecidableEq, Repr

/-- Embedding of MakerConfig::default (maker/config.rs lines 36-54). -/
def MakerConfig.default : MakerConfig :=
  { port := 3000
    heart_beat_interval_secs := 3
    rpc_ping_interval_secs := 60
    watchtower_ping_interval_secs := 300
    directory_servers_refresh_interval_secs := 60 * 60 * 12
    idle_connection_timeout := 300
    onion_addrs := "onion@example"
    absolute_fee_sats := 1000
    amount_relative_fee_ppb := 10000000
    time_relative_fee_ppb := 100000
    required_confirms := 1
    min_contract_reaction_time := 48
    min_size := 10000 }

/-- Default maker configuration with the port and onion address arguments
substituted, the value every fallback path of MakerConfig::init returns. -/
def makerDefaultWith (port : Nat) (onion : String) : MakerConfig :=
  { MakerConfig.default with port := port, onion_addrs := onion }

/-- The key list maker_keys of MakerConfig::init (maker/config.rs lines
84-97), in source order, including the duplicated heart_beat_interval_secs
entry. -/
def maker_keys : List String :=
  ["absolute_fee_sats", "amount_relative_fee_ppb", "time_relative_fee_ppb",
   "required_confirms", "min_contract_reaction_time", "min_size",
   "idle_connection_timeout", "watchtower_ping_interval_secs",
   "heart_beat_interval_secs", "heart_beat_interval_secs",
   "rpc_ping_interval_secs", "directory_servers_refresh_interval_secs"]

/-- Embedding of MakerConfig::init (maker/config.rs lines 58-167) over the
result of parse_toml.  Faithful to the source quirks: the presence check at
line 74 looks up a section literally named maker.toml, while line 82 then
unwraps the section named maker_config, a panic (none) when that section
is absent; a value failing str::parse::<uN>().unwrap() is likewise a
panic.  On every non-panic path port and onion_addrs come from the
arguments. -/
def MakerConfig.init (port : Nat) (onion_addrs : String)
    (sections : Except Unit ConfigSections) : Option MakerConfig :=
  match sections with
  | Except.error _ =>
    some { MakerConfig.default with port := port, onion_addrs := onion_addrs }
  | Except.ok secs =>
    match sections_get secs "maker.toml" with
    | none =>
      some { MakerConfig.default with port := port, onion_addrs := onion_addrs }
    | some _ =>
      match sections_get secs "maker_config" with
      | none => none
      | some sec =>
        if maker_keys.all (fun k => contains_key sec k) then
          match parse_uint 64 (getv sec "absolute_fee_sats"),
                parse_uint 64 (getv sec "amount_relative_fee_ppb"),
                parse_uint 64 (getv sec "time_relative_fee_ppb"),
                parse_uint 64 (getv sec "required_confirms"),
                parse_uint 16 (getv sec "min_contract_reaction_time"),
                parse_uint 64 (getv sec "min_size"),
                parse_uint 64 (getv sec "idle_connection_timeout"),
                parse_uint 64 (getv sec "watchtower_ping_interval_secs"),
                parse_uint 64 (getv sec "heart_beat_interval_secs"),
                parse_uint 64 (getv sec "rpc_ping_interval_secs"),
                parse_uint 64 (getv sec "directory_servers_refresh_interval_secs") with
          | some v1, some v2, some v3, some v4, some v5, some v6, some v7,
            some v8, some v9, some v10, some v11 =>
            some { port := port
                   heart_beat_interval_secs := v9
                   rpc_ping_interval_secs := v10
                   watchtower_ping_interval_secs := v8
                   directory_servers_refresh_interval_secs := v11
                   idle_connection_timeout := v7
                   onion_addrs := onion_addrs
                   absolute_fee_sats := v1
                   amount_relative_fee_ppb := v2
                   time_relative_fee_ppb := v3
                   required_confirms := v4
                   min_contract_reaction_time := v5
                   min_size := v6 }
          | _, _, _, _, _, _, _, _, _, _, _ => none
        else
          some { MakerConfig.default with port := port, onion_addrs := onion_addrs }

/- Wire messages.  The message type definitions and their serde instances
(protocol/messages.rs) are not in the source snapshot; the tagged-union
JSON wire format of spec sections 4.3 and 6 is modelled concretely for a
representative subset of each direction's variants, with signatures,
private keys and the preimage abstracted to Nat. -/

/-- Left brace character (written via its code point). -/
def lbrace : Char := Char.ofNat 123

/-- Right brace character (written via its code point). -/
def rbrace : Char := Char.ofNat 125

/-- JSON whitespace recognizer (serde_json skips these around a value). -/
def isWsChar (c : Char) : Bool :=
  c == ' ' || c == '\n' || c == '\t' || c == '\r'

/-- Decimal digit characters of a natural number, most significant first. -/
def natChars (n : Nat) : List Char :=
  if n = 0 then ['0']
  else ((Nat.digits 10 n).reverse.map (fun d => Char.ofNat (48 + d)))

/-- Body of a JSON array of numbers: the elements separated by commas and
closed by the bracket (the empty body is just the closing bracket). -/
def natBodyChars : List Nat → List Char
  | [] => [']']
  | [x] => natChars x ++ [']']
  | x :: y :: xs => natChars x ++ [','] ++ natBodyChars (y :: xs)

/-- JSON array of numbers. -/
def natListChars (l : List Nat) : List Char := ['['] ++ natBodyChars l

/-- Modelled from the spec, section 4.3: the Maker-to-Taker wire messages
named there (MakerHello, RespContractSigsForSender,
ReqContractSigsAsRecvrAndSender, RespPrivKeyHandover), with the field names
the spec gives.  Elements of the structured arrays (contract transactions,
per-hop funding commitments, signatures, private keys) are abstracted to
Nat identifiers. -/
inductive MakerToTakerMessage where
  | MakerHello (protocol_version_min protocol_version_max : Nat)
  | RespContractSigsForSender (sigs : List Nat)
  | ReqContractSigsAsRecvrAndSender (receivers_contract_txs : List Nat)
      (senders_contract_txs_info : List Nat)
  | RespPrivKeyHandover (multisig_privkeys : List Nat)
deriving DecidableEq, Repr

/-- Modelled from the spec, section 4.3: the Taker-to-Maker wire messages
named there (TakerHello, ReqContractSigsForSender, RespProofOfFunding,
RespHashPreimage), with the field names the spec gives.  Elements of the
structured arrays (tx infos, funding proofs, next-hop infos, redeemscripts,
preimage bytes) are abstracted to Nat identifiers; hashvalue and the
locktimes and fee rate are single numbers. -/
inductive TakerToMakerMessage where
  | TakerHello (protocol_version_min protocol_version_max : Nat)
  | ReqContractSigsForSender (txs_info : List Nat) (hashvalue : Nat)
      (locktime : Nat)
  | RespProofOfFunding (confirmed_funding_txes : List Nat)
      (next_coinswap_info : List Nat) (next_locktime : Nat)
      (next_fee_rate : Nat)
  | RespHashPreimage (senders_multisig_redeemscripts : List Nat)
      (receivers_multisig_redeemscripts : List Nat) (preimage : List Nat)
deriving DecidableEq, Repr

/-- Tag of the MakerHello variant. -/
def litHelloTag : List Char := "MakerHello".toList

/-- Tag of the RespContractSigsForSender variant. -/
def litSigsTag : List Char := "RespContractSigsForSender".toList

/-- Tag of the ReqContractSigsAsRecvrAndSender variant. -/
def litRecvrSenderTag : List Char := "ReqContractSigsAsRecvrAndSender".toList

/-- Tag of the RespPrivKeyHandover variant. -/
def litKeysTag : List Char := "RespPrivKeyHandover".toList

/-- Tag of the TakerHello variant. -/
def litTakerHelloTag : List Char := "TakerHello".toList

/-- Tag of the ReqContractSigsForSender variant. -/
def litReqSigsSenderTag : List Char := "ReqContractSigsForSender".toList

/-- Tag of the RespProofOfFunding variant. -/
def litProofOfFundingTag : List Char := "RespProofOfFunding".toList

/-- Tag of the RespHashPreimage variant. -/
def litPreimageTag : List Char := "RespHashPreimage".toList

/-- Payload opener of the two hello variants up to the first field value. -/
def litHelloBody1 : List Char := "\x7b\"protocol_version_min\":".toList

/-- Separator of the two hello fields. -/
def litHelloBody2 : List Char := ",\"protocol_version_max\":".toList

/-- Payload opener of RespContractSigsForSender. -/
def litSigsBody1 : List Char := "\x7b\"sigs\":".toList

/-- Payload opener of RespPrivKeyHandover. -/
def litKeysBody1 : List Char := "\x7b\"multisig_privkeys\":".toList

/-- Payload opener of ReqContractSigsForSender. -/
def litTxsInfoBody1 : List Char := "\x7b\"txs_info\":".toList

/-- Separator before the hashvalue field. -/
def litHashvalueBody : List Char := ",\"hashvalue\":".toList

/-- Separator before the locktime field. -/
def litLocktimeBody : List Char := ",\"locktime\":".toList

/-- Payload opener of RespProofOfFunding. -/
def litFundingBody1 : List Char := "\x7b\"confirmed_funding_txes\":".toList

/-- Separator before the next_coinswap_info field. -/
def litNextInfoBody : List Char := ",\"next_coinswap_info\":".toList

/-- Separator before the next_locktime field. -/
def litNextLocktimeBody : List Char := ",\"next_locktime\":".toList

/-- Separator before the next_fee_rate field. -/
def litNextFeeRateBody : List Char := ",\"next_fee_rate\":".toList

/-- Payload opener of RespHashPreimage. -/
def litSendersRsBody1 : List Char :=
  "\x7b\"senders_multisig_redeemscripts\":".toList

/-- Separator before the receivers_multisig_redeemscripts field. -/
def litReceiversRsBody : List Char :=
  ",\"receivers_multisig_redeemscripts\":".toList

/-- Separator before the preimage field. -/
def litPreimageBody : List Char := ",\"preimage\":".toList

/-- Payload opener of ReqContractSigsAsRecvrAndSender. -/
def litRecvrTxsBody1 : List Char := "\x7b\"receivers_contract_txs\":".toList

/-- Separator before the senders_contract_txs_info field. -/
def litSendersTxsBody : List Char := ",\"senders_contract_txs_info\":".toList

/-- Closing braces of payload and envelope. -/
def litEnd : List Char := "\x7d\x7d".toList

/-- Serialization of a Maker-to-Taker message: the serde_json externally
tagged compact encoding of the modelled variants. -/
def encodeM : MakerToTakerMessage → List Char
  | MakerToTakerMessage.MakerHello a b =>
    [lbrace, '"'] ++ litHelloTag ++ ['"', ':'] ++ litHelloBody1 ++ natChars a
      ++ litHelloBody2 ++ natChars b ++ litEnd
  | MakerToTakerMessage.RespContractSigsForSender sigs =>
    [lbrace, '"'] ++ litSigsTag ++ ['"', ':'] ++ litSigsBody1
      ++ natListChars sigs ++ litEnd
  | MakerToTakerMessage.ReqContractSigsAsRecvrAndSender rct sct =>
    [lbrace, '"'] ++ litRecvrSenderTag ++ ['"', ':'] ++ litRecvrTxsBody1
      ++ natListChars rct ++ litSendersTxsBody ++ natListChars sct ++ litEnd
  | MakerToTakerMessage.RespPrivKeyHandover ks =>
    [lbrace, '"'] ++ litKeysTag ++ ['"', ':'] ++ litKeysBody1
      ++ natListChars ks ++ litEnd

/-- Serialization of a Taker-to-Maker message. -/
def encodeT : TakerToMakerMessage → List Char
  | TakerToMakerMessage.TakerHello a b =>
    [lbrace, '"'] ++ litTakerHelloTag ++ ['"', ':'] ++ litHelloBody1
      ++ natChars a ++ litHelloBody2 ++ natChars b ++ litEnd
  | TakerToMakerMessage.ReqContractSigsForSender txs hv lt =>
    [lbrace, '"'] ++ litReqSigsSenderTag ++ ['"', ':'] ++ litTxsInfoBody1
      ++ natListChars txs ++ litHashvalueBody ++ natChars hv
      ++ litLocktimeBody ++ natChars lt ++ litEnd
  | TakerToMakerMessage.RespProofOfFunding txes info nlt nfr =>
    [lbrace, '"'] ++ litProofOfFundingTag ++ ['"', ':'] ++ litFundingBody1
      ++ natListChars txes ++ litNextInfoBody ++ natListChars info
      ++ litNextLocktimeBody ++ natChars nlt ++ litNextFeeRateBody
      ++ natChars nfr ++ litEnd
  | TakerToMakerMessage.RespHashPreimage srs rrs p =>
    [lbrace, '"'] ++ litPreimageTag ++ ['"', ':'] ++ litSendersRsBody1
      ++ natListChars srs ++ litReceiversRsBody ++ natListChars rrs
      ++ litPreimageBody ++ natListChars p ++ litEnd

/-- Consume an expected literal chunk from the front of the input. -/
def stripLit : List Char → List Char → Option (List Char)
  | [], s => some s
  | _ :: _, [] => none
  | l :: ls, c :: cs => if c = l then stripLit ls cs else none

/-- Parse a decimal number from the front of the input. -/
def parseNatChars (s : List Char) : Option (Nat × List Char) :=
  match s.takeWhile Char.isDigit with
  | [] => none
  | ds => some (ds.foldl (fun a c => 10 * a + (c.toNat - 48)) 0,
                s.dropWhile Char.isDigit)

/-- Parse the nonempty body of a JSON number array: numbers separated by
commas, terminated by the closing bracket.  The fuel bounds the number of
elements; each recursive step consumes at least two characters. -/
def parseNatsAux : Nat → List Char → Option (List Nat × List Char)
  | 0, _ => none
  | fuel + 1, s =>
    match parseNatChars s with
    | none => none
    | some (n, rest) =>
      match stripLit [']'] rest with
      | some r => some ([n], r)
      | none =>
        match stripLit [','] rest with
        | none => none
        | some r =>
          match parseNatsAux fuel r with
          | some (l, r2) => some (n :: l, r2)
          | none => none

/-- Parse a JSON array of numbers from the front of the input. -/
def parseNatList (s : List Char) : Option (List Nat × List Char) :=
  match stripLit ['['] s with
  | none => none
  | some s1 =>
    match stripLit [']'] s1 with
    | some rest => some (([] : List Nat), rest)
    | none => parseNatsAux (s1.length + 1) s1

/-- Parse the payload of a hello message (two version fields). -/
def parseHelloFields (s : List Char) : Option ((Nat × Nat) × List Char) :=
  match stripLit litHelloBody1 s with
  | none => none
  | some s1 =>
    match parseNatChars s1 with
    | none => none
    | some (a, s2) =>
      match stripLit litHelloBody2 s2 with
      | none => none
      | some s3 =>
        match parseNatChars s3 with
        | none => none
        | some (b, s4) =>
          match stripLit litEnd s4 with
          | none => none
          | some s5 => some ((a, b), s5)

/-- Parse a payload consisting of a single number-array field introduced by
the given literal opener. -/
def parseListField (opener : List Char) (s : List Char) :
    Option (List Nat × List Char) :=
  match stripLit opener s with
  | none => none
  | some s1 =>
    match parseNatList s1 with
    | none => none
    | some (l, s2) =>
      match stripLit litEnd s2 with
      | none => none
      | some s3 => some (l, s3)

/-- Parse the payload of ReqContractSigsForSender: the txs_info array, the
hashvalue and the locktime. -/
def parseReqSigsSenderFields (s : List Char) :
    Option ((List Nat × Nat × Nat) × List Char) :=
  match stripLit litTxsInfoBody1 s with
  | none => none
  | some s1 =>
    match parseNatList s1 with
    | none => none
    | some (txs, s2) =>
      match stripLit litHashvalueBody s2 with
      | none => none
      | some s3 =>
        match parseNatChars s3 with
        | none => none
        | some (hv, s4) =>
          match stripLit litLocktimeBody s4 with
          | none => none
          | some s5 =>
            match parseNatChars s5 with
            | none => none
            | some (lt, s6) =>
              match stripLit litEnd s6 with
              | none => none
              | some s7 => some ((txs, hv, lt), s7)

/-- Parse the payload of RespProofOfFunding: the confirmed funding txes and
next-hop info arrays, the next locktime and the next fee rate. -/
def parseProofOfFundingFields (s : List Char) :
    Option ((List Nat × List Nat × Nat × Nat) × List Char) :=
  match stripLit litFundingBody1 s with
  | none => none
  | some s1 =>
    match parseNatList s1 with
    | none => none
    | some (txes, s2) =>
      match stripLit litNextInfoBody s2 with
      | none => none
      | some s3 =>
        match parseNatList s3 with
        | none => none
        | some (info, s4) =>
          match stripLit litNextLocktimeBody s4 with
          | none => none
          | some s5 =>
            match parseNatChars s5 with
            | none => none
            | some (nlt, s6) =>
              match stripLit litNextFeeRateBody s6 with
              | none => none
              | some s7 =>
                match parseNatChars s7 with
                | none => none
                | some (nfr, s8) =>
                  match stripLit litEnd s8 with
                  | none => none
                  | some s9 => some ((txes, info, nlt, nfr), s9)

/-- Parse the payload of RespHashPreimage: the two redeemscript arrays and
the preimage bytes. -/
def parseHashPreimageFields (s : List Char) :
    Option ((List Nat × List Nat × List Nat) × List Char) :=
  match stripLit litSendersRsBody1 s with
  | none => none
  | some s1 =>
    match parseNatList s1 with
    | none => none
    | some (srs, s2) =>
      match stripLit litReceiversRsBody s2 with
      | none => none
      | some s3 =>
        match parseNatList s3 with
        | none => none
        | some (rrs, s4) =>
          match stripLit litPreimageBody s4 with
          | none => none
          | some s5 =>
            match parseNatList s5 with
            | none => none
            | some (p, s6) =>
              match stripLit litEnd s6 with
              | none => none
              | some s7 => some ((srs, rrs, p), s7)

/-- Parse the payload of ReqContractSigsAsRecvrAndSender: the receiver-side
contract tx array and the sender-side funding commitment array. -/
def parseRecvrSenderFields (s : List Char) :
    Option ((List Nat × List Nat) × List Char) :=
  match stripLit litRecvrTxsBody1 s with
  | none => none
  | some s1 =>
    match parseNatList s1 with
    | none => none
    | some (rct, s2) =>
      match stripLit litSendersTxsBody s2 with
      | none => none
      | some s3 =>
        match parseNatList s3 with
        | none => none
        | some (sct, s4) =>
          match stripLit litEnd s4 with
          | none => none
          | some s5 => some ((rct, sct), s5)

/-- Parse one Maker-to-Taker message value from the front of the input:
envelope brace, quoted variant tag, colon, then the variant payload. -/
def decodeMBody (s : List Char) : Option (MakerToTakerMessage × List Char) :=
  match stripLit [lbrace, '"'] s with
  | none => none
  | some s1 =>
    match stripLit ['"', ':'] (s1.dropWhile (fun c => c != '"')) with
    | none => none
    | some s3 =>
      if s1.takeWhile (fun c => c != '"') = litHelloTag then
        match parseHelloFields s3 with
        | none => none
        | some ((a, b), r) => some (MakerToTakerMessage.MakerHello a b, r)
      else if s1.takeWhile (fun c => c != '"') = litSigsTag then
        match parseListField litSigsBody1 s3 with
        | none => none
        | some (l, r) => some (MakerToTakerMessage.RespContractSigsForSender l, r)
      else if s1.takeWhile (fun c => c != '"') = litRecvrSenderTag then
        match parseRecvrSenderFields s3 with
        | none => none
        | some ((rct, sct), r) =>
          some (MakerToTakerMessage.ReqContractSigsAsRecvrAndSender rct sct, r)
      else if s1.takeWhile (fun c => c != '"') = litKeysTag then
        match parseListField litKeysBody1 s3 with
        | none => none
        | some (l, r) => some (MakerToTakerMessage.RespPrivKeyHandover l, r)
      else none

/-- Parse one Taker-to-Maker message value from the front of the input. -/
def decodeTBody (s : List Char) : Option (TakerToMakerMessage × List Char) :=
  match stripLit [lbrace, '"'] s with
  | none => none
  | some s1 =>
    match stripLit ['"', ':'] (s1.dropWhile (fun c => c != '"')) with
    | none => none
    | some s3 =>
      if s1.takeWhile (fun c => c != '"') = litTakerHelloTag then
        match parseHelloFields s3 with
        | none => none
        | some ((a, b), r) => some (TakerToMakerMessage.TakerHello a b, r)
      else if s1.takeWhile (fun c => c != '"') = litReqSigsSenderTag then
        match parseReqSigsSenderFields s3 with
        | none => none
        | some ((txs, hv, lt), r) =>
          some (TakerToMakerMessage.ReqContractSigsForSender txs hv lt, r)
      else if s1.takeWhile (fun c => c != '"') = litProofOfFundingTag then
        match parseProofOfFundingFields s3 with
        | none => none
        | some ((txes, info, nlt, nfr), r) =>
          some (TakerToMakerMessage.RespProofOfFunding txes info nlt nfr, r)
      else if s1.takeWhile (fun c => c != '"') = litPreimageTag then
        match parseHashPreimageFields s3 with
        | none => none
        | some ((srs, rrs, p), r) =>
          some (TakerToMakerMessage.RespHashPreimage srs rrs p, r)
      else none

/-- Modelled serde_json::from_str for MakerToTakerMessage: skip leading
whitespace, parse one message value, and require only whitespace after it
(read_message hands the parser the line including its trailing newline). -/
def serde_from_str_maker (s : List Char) : Option MakerToTakerMessage :=
  match decodeMBody (s.dropWhile isWsChar) with
  | some (m, rest) => if rest.all isWsChar then some m else none
  | none => none

/-- Modelled serde_json::from_str for TakerToMakerMessage (the maker-side
reader is not in the source snapshot; same wire rules per spec section 6). -/
def serde_from_str_taker (s : List Char) : Option TakerToMakerMessage :=
  match decodeTBody (s.dropWhile isWsChar) with
  | some (m, rest) => if rest.all isWsChar then some m else none
  | none => none

/-- Outcome of BufReader::read_line in read_message: an io-level failure,
or the appended line (empty exactly when zero bytes were read, i.e. EOF). -/
inductive ReadLineResult where
  | ioError (msg : String)
  | data (line : List Char)
deriving DecidableEq, Repr

/-- Embedding of read_message (utill.rs lines 41-58).  An io error from
read_line propagates through the question-mark operator; the From
conversion lives in the error module absent from the snapshot and is
modelled from the spec's taxonomy (io failure classifies as Network).  Zero
bytes read is the explicit Network connection-reset branch; a line that
does not parse is Protocol "json parsing error"; otherwise the parsed
message is returned. -/
def read_message (r : ReadLineResult) :
    Except TeleportError MakerToTakerMessage :=
  match r with
  | ReadLineResult.ioError e => Except.error (TeleportError.Network e)
  | ReadLineResult.data line =>
    if line.length = 0 then Except.error (TeleportError.Network "EOF")
    else
      match serde_from_str_maker line with
      | some m => Except.ok m
      | none => Except.error (TeleportError.Protocol "json parsing error")

/-- Embedding of send_message (utill.rs lines 29-38): serialize the message
(serde_json::to_vec, modelled by encodeT), push one newline byte, and
write_all appends the bytes to the stream. -/
def send_message (stream : List Char) (m : TakerToMakerMessage) : List Char :=
  stream ++ (encodeT m ++ ['\n'])

/- Direct-send transaction building (wallet/direct_send.rs).  Scripts,
script pubkeys and witnesses are abstracted to Nat identifiers; txids to
their hex strings so that the short-form prefix and suffix matching is
meaningful. -/

/-- Transaction outpoint: txid (hex string) and output index. -/
structure OutPointM where
  txid : String
  vout : Nat
deriving DecidableEq, Repr

/-- One list_unspent entry: outpoint data and amount in sats. -/
structure UnspentEntry where
  txid : String
  vout : Nat
  amount : Nat
deriving DecidableEq, Repr

/-- Spend information attached to a wallet UTXO (enum UTXOSpendInfo of
wallet/api.rs, which is not in the snapshot; the variants matched by
create_direct_send are modelled with the fields it uses, the remaining
variants collapse into the catch-all arm). -/
inductive UTXOSpendInfo where
  | SeedCoin (path : String) (input_value : Nat)
  | SwapCoin (multisig_redeemscript : Nat)
  | TimelockContract (swapcoin_multisig_redeemscript : Nat) (input_value : Nat)
  | HashlockContract (swapcoin_multisig_redeemscript : Nat) (input_value : Nat)
  | FidelityBondCoin (script : Nat) (input_value : Nat)
deriving DecidableEq, Repr

/-- Bitcoin network of an address or wallet store. -/
inductive NetworkM where
  | Bitcoin
  | Testnet
  | Signet
  | Regtest
deriving DecidableEq, Repr

/-- Address: its network and its script pubkey. -/
structure AddressM where
  network : NetworkM
  spk : Nat
deriving DecidableEq, Repr

/-- Enum SendAmount (wallet/direct_send.rs lines 32-35). -/
inductive SendAmount where
  | Max
  | Amount (a : Nat)
deriving DecidableEq, Repr

/-- Enum Destination (wallet/direct_send.rs lines 51-54). -/
inductive Destination where
  | Wallet
  | Address (a : AddressM)
deriving DecidableEq, Repr

/-- Enum CoinToSpend (wallet/direct_send.rs lines 76-83); the short form
carries a txid prefix, a txid suffix and the output index. -/
inductive CoinToSpend where
  | LongForm (outpoint : OutPointM)
  | ShortForm (pre suf : String) (vout : Nat)
deriving DecidableEq, Repr

/-- Outgoing swapcoin as used by create_direct_send: its multisig
redeemscript and its contract timelock (get_timelock), u16 in Rust. -/
structure OutgoingSwapCoinM where
  multisig_redeemscript : Nat
  timelock : Nat
deriving DecidableEq, Repr

/-- Wallet state consulted by create_direct_send: the outgoing swapcoins
(for find_outgoing_swapcoin) and the store's network. -/
structure WalletM where
  outgoing_swapcoins : List OutgoingSwapCoinM
  store_network : NetworkM
deriving DecidableEq, Repr

/-- Wallet::find_outgoing_swapcoin: lookup by multisig redeemscript. -/
def find_outgoing_swapcoin (w : WalletM) (rs : Nat) : Option OutgoingSwapCoinM :=
  w.outgoing_swapcoins.find? (fun sc => sc.multisig_redeemscript == rs)

/-- Transaction input: previous outpoint, sequence number, witness stack
and script sig (both abstracted). -/
structure TxInM where
  previous_output : OutPointM
  sequence : Nat
  witness : List Nat
  script_sig : Nat
deriving DecidableEq, Repr

/-- Transaction output: script pubkey and value. -/
structure TxOutM where
  script_pubkey : Nat
  value : Nat
deriving DecidableEq, Repr

/-- Transaction as assembled by create_direct_send. -/
structure TransactionM where
  input : List TxInM
  output : List TxOutM
  lock_time : Nat
  version : Nat
deriving DecidableEq, Repr

/-- The match of one unspent entry against one requested coin
(wallet/direct_send.rs lines 279-307): the long form compares txid and
vout, the short form matches txid hex prefix and suffix and compares
vout.  Returns the outpoint to spend when they match. -/
def ctsMatch (entry : UnspentEntry) (cts : CoinToSpend) : Option OutPointM :=
  match cts with
  | CoinToSpend.LongForm op =>
    if entry.txid = op.txid ∧ entry.vout = op.vout then some op else none
  | CoinToSpend.ShortForm pre suf v =>
    if entry.txid.startsWith pre ∧ entry.txid.endsWith suf ∧ entry.vout = v
    then some ⟨entry.txid, entry.vout⟩ else none

/-- Recognizer of the fidelity-bond variant, used by the filter at
wallet/direct_send.rs line 274. -/
def isFidelity : UTXOSpendInfo → Bool
  | UTXOSpendInfo.FidelityBondCoin _ _ => true
  | _ => false

/-- Matched coins in the order the double loop of create_direct_send
pushes them: fidelity bonds are filtered out of the unspent list, then for
each remaining entry every requested coin is tried in order. -/
def matched_coins (lur : List (UnspentEntry × UTXOSpendInfo))
    (coins : List CoinToSpend) :
    List (OutPointM × UnspentEntry × UTXOSpendInfo) :=
  ((lur.filter (fun eu => ! isFidelity eu.2)).map
    (fun eu => coins.filterMap
      (fun cts => (ctsMatch eu.1 cts).map (fun op => (op, eu))))).flatten

/-- Sequence number assigned to a matched input (wallet/direct_send.rs
lines 310-323): a timelock-contract UTXO gets the outgoing swapcoin's
timelock (the find_outgoing_swapcoin unwrap is a panic, modelled none,
when the swapcoin is unknown), a hashlock-contract UTXO gets 1, and every
other UTXO gets 0. -/
def input_sequence (w : WalletM) : UTXOSpendInfo → Option Nat
  | UTXOSpendInfo.TimelockContract rs _ =>
    (find_outgoing_swapcoin w rs).map (fun sc => sc.timelock)
  | UTXOSpendInfo.HashlockContract _ _ => some 1
  | _ => some 0

/-- Option-valued map over a list, failing when any element fails. -/
def mapOption {α β : Type} (f : α → Option β) : List α → Option (List β)
  | [] => some []
  | a :: as =>
    match f a, mapOption f as with
    | some b, some bs => some (b :: bs)
    | _, _ => none

/-- Modelled from the spec, section 6 (Wallet::sign_transaction is a wallet
collaborator not in the snapshot): signing fills each input's witness stack
(supplied here indexed by input position) and touches nothing else. -/
def sign_inputs (sigFor : Nat → List Nat) : Nat → List TxInM → List TxInM
  | _, [] => []
  | i, t :: ts => { t with witness := sigFor i } :: sign_inputs sigFor (i + 1) ts

/-- Wrapping u64 subtraction (release semantics) for an x already below
the modulus. -/
def u64sub (x y : Nat) : Nat := (x + U64MOD - y % U64MOD) % U64MOD

/-- Embedding of Wallet::create_direct_send (wallet/direct_send.rs lines
259-391).  Collaborator results are passed in: the successful
list_unspent_from_wallet result, the next external address and next
internal script pubkey, the chain tip height, and the witness stacks the
signer produces.  Panics (an unfound requested coin making the input count
differ, a wrong-network destination, an unknown outgoing swapcoin for a
timelock input, a chain tip outside the LockTime height range) are
modelled as none. -/
def create_direct_send (w : WalletM) (fee_rate : Nat)
    (send_amount : SendAmount) (destination : Destination)
    (coins_to_spend : List CoinToSpend)
    (lur : List (UnspentEntry × UTXOSpendInfo))
    (next_external : AddressM) (next_internal_spk : Nat)
    (block_count : Nat) (sigFor : Nat → List Nat) : Option TransactionM :=
  match mapOption
      (fun m => (input_sequence w m.2.2).map
        (fun s => ({ previous_output := m.1, sequence := s, witness := [],
                     script_sig := 0 } : TxInM)))
      (matched_coins lur coins_to_spend) with
  | none => none
  | some tx_inputs =>
    if tx_inputs.length ≠ coins_to_spend.length then none
    else
      match (match destination with
        | Destination.Wallet => some next_external
        | Destination.Address a =>
          if a.network ≠ w.store_network ∧
              ¬ ((a.network = NetworkM.Testnet ∨ a.network = NetworkM.Signet) ∧
                 (w.store_network = NetworkM.Testnet ∨
                  w.store_network = NetworkM.Signet))
          then none else some a) with
      | none => none
      | some dest_addr =>
        if block_count % 2 ^ 32 < 500000000 then
          some
            { input := sign_inputs sigFor 0 tx_inputs
              output :=
                (let miner_fee := 500 * fee_rate % U64MOD / 1000
                 let total := (matched_coins lur coins_to_spend).foldl
                   (fun acc m => (acc + m.2.1.amount) % U64MOD) 0
                 match send_amount with
                 | SendAmount.Max =>
                   [{ script_pubkey := dest_addr.spk,
                      value := u64sub total miner_fee }]
                 | SendAmount.Amount a =>
                   [{ script_pubkey := dest_addr.spk, value := a },
                    { script_pubkey := next_internal_spk,
                      value := u64sub (u64sub total a) miner_fee }])
              lock_time := block_count % 2 ^ 32
              version := 2 }
        else none

/-- Sequence-number specification of one built input against the matched
coin that produced it: hashlock contracts get sequence 1, timelock
contracts the outgoing swapcoin's timelock, everything else 0. -/
def seqSpec (w : WalletM) (txin : TxInM)
    (m : OutPointM × UnspentEntry × UTXOSpendInfo) : Prop :=
  match m.2.2 with
  | UTXOSpendInfo.HashlockContract _ _ => txin.sequence = 1
  | UTXOSpendInfo.TimelockContract rs _ =>
    ∃ sc, find_outgoing_swapcoin w rs = some sc ∧ txin.sequence = sc.timelock
  | _ => txin.sequence = 0

/- Concrete fixtures used by witnesses and counterexamples. -/

/-- Taker config section holding all ten expected keys where one value is
not a number. -/
def badTakerSection : ConfigSection :=
  [("reconnect_short_sleep_delay", "ten"), ("reconnect_attempts", "1"),
   ("first_connect_attempt_timeout_sec", "1"), ("refund_locktime", "1"),
   ("first_connect_sleep_delay_sec", "1"), ("reconnect_long_sleep_delay", "1"),
   ("reconnect_attempt_timeout_sec", "1"), ("refund_locktime_step", "1"),
   ("first_connect_attempts", "1"), ("short_long_sleep_delay_transition", "1")]

/-- Wallet fixture: one outgoing swapcoin with redeemscript 7 and timelock
144, on regtest. -/
def wW : WalletM :=
  { outgoing_swapcoins := [{ multisig_redeemscript := 7, timelock := 144 }]
    store_network := NetworkM.Regtest }

/-- Unspent-list fixture: a hashlock-contract coin, a timelock-contract
coin of the known swapcoin, and a seed coin. -/
def lurW : List (UnspentEntry × UTXOSpendInfo) :=
  [({ txid := "aa", vout := 0, amount := 50000 },
    UTXOSpendInfo.HashlockContract 9 50000),
   ({ txid := "bb", vout := 1, amount := 60000 },
    UTXOSpendInfo.TimelockContract 7 60000),
   ({ txid := "cc", vout := 2, amount := 70000 },
    UTXOSpendInfo.SeedCoin "m/0" 70000)]

/-- Requested coins fixture matching the three unspent entries. -/
def coinsW : List CoinToSpend :=
  [CoinToSpend.LongForm { txid := "aa", vout := 0 },
   CoinToSpend.LongForm { txid := "bb", vout := 1 },
   CoinToSpend.LongForm { txid := "cc", vout := 2 }]

/-- The transaction create_direct_send builds from the fixtures. -/
def txW : TransactionM :=
  { input :=
      [{ previous_output := { txid := "aa", vout := 0 }, sequence := 1,
         witness := [], script_sig := 0 },
       { previous_output := { txid := "bb", vout := 1 }, sequence := 144,
         witness := [], script_sig := 0 },
       { previous_output := { txid := "cc", vout := 2 }, sequence := 0,
         witness := [], script_sig := 0 }]
    output := [{ script_pubkey := 5, value := 179500 }]
    lock_time := 100
    version := 2 }

/- Helper lemmas. -/

/-- Head of an append when the left part has a head. -/
theorem head_append_of_head (l r : List Char) (c : Char)
    (h : l.head? = some c) : (l ++ r).head? = some c := by
  cases l with
  | nil => simp at h
  | cons a t => simpa using h

/-- takeWhile stops exactly at the boundary of an append whose left part
satisfies the predicate and whose right part starts violating it. -/
theorem takeWhile_append_eq (p : Char → Bool) (l r : List Char)
    (hl : ∀ c ∈ l, p c = true)
    (hr : ∀ c, r.head? = some c → p c = false) :
    (l ++ r).takeWhile p = l := by
  induction l with
  | nil =>
    cases r with
    | nil => simp
    | cons c cs => simp [List.takeWhile_cons, hr c rfl]
  | cons a t ih =>
    have ha : p a = true := hl a (by simp)
    simp only [List.cons_append, List.takeWhile_cons, ha, if_true]
    rw [ih (fun c hc => hl c (by simp [hc]))]

/-- dropWhile counterpart of takeWhile_append_eq. -/
theorem dropWhile_append_eq (p : Char → Bool) (l r : List Char)
    (hl : ∀ c ∈ l, p c = true)
    (hr : ∀ c, r.head? = some c → p c = false) :
    (l ++ r).dropWhile p = r := by
  induction l with
  | nil =>
    cases r with
    | nil => simp
    | cons c cs => simp [List.dropWhile_cons, hr c rfl]
  | cons a t ih =>
    have ha : p a = true := hl a (by simp)
    simp only [List.cons_append, List.dropWhile_cons, ha, if_true]
    exact ih (fun c hc => hl c (by simp [hc]))

/-- stripLit consumes exactly its literal from the front. -/
theorem stripLit_self (lit s : List Char) : stripLit lit (lit ++ s) = some s := by
  induction lit with
  | nil => rfl
  | cons c cs ih => simp [stripLit, ih]

/-- stripLit of a two-character literal in cons form. -/
theorem stripLit2 (c1 c2 : Char) (t : List Char) :
    stripLit [c1, c2] (c1 :: c2 :: t) = some t := by
  simp [stripLit]

/-- stripLit of a one-character literal in cons form. -/
theorem stripLit1 (a : Char) (t : List Char) :
    stripLit [a] (a :: t) = some t := by
  simp [stripLit]

/-- stripLit of a one-character literal fails on a different head. -/
theorem stripLit_single_ne (a c : Char) (t : List Char) (h : c ≠ a) :
    stripLit [a] (c :: t) = none := by
  simp [stripLit, h]

/-- Digit characters of a number are never empty. -/
theorem natChars_ne_nil (n : Nat) : natChars n ≠ [] := by
  unfold natChars
  split
  · simp
  · rename_i h
    simp only [ne_eq, List.map_eq_nil_iff, List.reverse_eq_nil_iff]
    exact Nat.digits_ne_nil_iff_ne_zero.mpr h

/-- Every character produced by natChars is a digit. -/
theorem natChars_all_digit (n : Nat) : ∀ c ∈ natChars n, c.isDigit = true := by
  unfold natChars
  split
  · intro c hc
    simp only [List.mem_singleton] at hc
    subst hc
    decide
  · intro c hc
    simp only [List.mem_map, List.mem_reverse] at hc
    obtain ⟨d, hd, rfl⟩ := hc
    have hlt : d < 10 := Nat.digits_lt_base (by norm_num) hd
    interval_cases d <;> decide

/-- Folding the digit characters of n back into a number recovers n. -/
theorem natChars_foldl (n : Nat) :
    (natChars n).foldl (fun a c => 10 * a + (c.toNat - 48)) 0 = n := by
  unfold natChars
  split
  · rename_i h
    subst h
    decide
  · rename_i h
    rw [List.foldl_map, List.foldl_reverse]
    have key : ∀ (L : List Nat), (∀ d ∈ L, d < 10) →
        L.foldr (fun d a => 10 * a + ((Char.ofNat (48 + d)).toNat - 48)) 0
          = Nat.ofDigits 10 L := by
      intro L
      induction L with
      | nil => intro _; simp [Nat.ofDigits]
      | cons d L ih =>
        intro hall
        have hd : d < 10 := hall d (by simp)
        have hchar : (Char.ofNat (48 + d)).toNat = 48 + d := by
          interval_cases d <;> decide
        simp only [List.foldr_cons, Nat.ofDigits_cons,
          ih (fun x hx => hall x (by simp [hx])), hchar]
        omega
    rw [key _ (fun d hd => Nat.digits_lt_base (by norm_num) hd),
      Nat.ofDigits_digits]

/-- parseNatChars reads back exactly the digits natChars produced, provided
the remainder does not begin with a digit. -/
theorem parseNatChars_encode (n : Nat) (rest : List Char)
    (h : ∀ c, rest.head? = some c → c.isDigit = false) :
    parseNatChars (natChars n ++ rest) = some (n, rest) := by
  unfold parseNatChars
  rw [takeWhile_append_eq Char.isDigit (natChars n) rest (natChars_all_digit n) h,
    dropWhile_append_eq Char.isDigit (natChars n) rest (natChars_all_digit n) h]
  cases hne : natChars n with
  | nil => exact absurd hne (natChars_ne_nil n)
  | cons c cs =>
    simp only
    rw [← hne, natChars_foldl]

/-- Closing bracket and comma are not digits (boundary facts reused in the
array parsing proofs). -/
theorem bracket_comma_not_digit :
    Char.isDigit ']' = false ∧ Char.isDigit ',' = false := by decide

/-- The body encoder always yields at least as many characters as there
are list elements. -/
theorem natBody_length (l : List Nat) :
    l.length ≤ (natBodyChars l).length := by
  induction l with
  | nil => simp [natBodyChars]
  | cons x l ih =>
    cases l with
    | nil => simp [natBodyChars]
    | cons y t =>
      have hx := natChars_ne_nil x
      have : 1 ≤ (natChars x).length := by
        cases hc : natChars x with
        | nil => exact absurd hc hx
        | cons a b => simp
      simp only [natBodyChars, List.length_append, List.length_cons]
      simp only [List.length_cons] at ih
      omega

/-- parseNatsAux reads back exactly a nonempty encoded array body when
given enough fuel. -/
theorem parseNatsAux_encode (l : List Nat) :
    l ≠ [] → ∀ (fuel : Nat), l.length ≤ fuel → ∀ (rest : List Char),
      parseNatsAux fuel (natBodyChars l ++ rest) = some (l, rest) := by
  induction l with
  | nil => intro h; exact absurd rfl h
  | cons x l ih =>
    intro _ fuel hf rest
    cases fuel with
    | zero => simp at hf
    | succ f =>
      cases l with
      | nil =>
        have hp : parseNatChars (natChars x ++ (']' :: rest))
            = some (x, ']' :: rest) := by
          refine parseNatChars_encode x _ ?_
          intro c hc
          simp only [List.head?_cons, Option.some.injEq] at hc
          subst hc
          decide
        simp only [natBodyChars, List.append_assoc, List.cons_append,
          List.nil_append]
        simp only [parseNatsAux, hp, stripLit1]
      | cons y t =>
        have hp : parseNatChars
            (natChars x ++ (',' :: (natBodyChars (y :: t) ++ rest)))
            = some (x, ',' :: (natBodyChars (y :: t) ++ rest)) := by
          refine parseNatChars_encode x _ ?_
          intro c hc
          simp only [List.head?_cons, Option.some.injEq] at hc
          subst hc
          decide
        have hrec : parseNatsAux f (natBodyChars (y :: t) ++ rest)
            = some (y :: t, rest) := by
          refine ih (by simp) f ?_ rest
          simp only [List.length_cons] at hf ⊢
          omega
        simp only [natBodyChars, List.append_assoc, List.cons_append,
          List.nil_append]
        simp only [parseNatsAux, hp,
          stripLit_single_ne ']' ',' _ (by decide), stripLit1, hrec]

/-- parseNatList inverts natListChars. -/
theorem parseNatList_encode (l : List Nat) (rest : List Char) :
    parseNatList (natListChars l ++ rest) = some (l, rest) := by
  cases l with
  | nil =>
    simp only [natListChars, natBodyChars, List.cons_append, List.nil_append]
    simp only [parseNatList, stripLit1]
  | cons x t =>
    have hx : ∃ c cs, natChars x = c :: cs ∧ c.isDigit = true := by
      cases hc : natChars x with
      | nil => exact absurd hc (natChars_ne_nil x)
      | cons c cs =>
        exact ⟨c, cs, rfl, natChars_all_digit x c (by rw [hc]; simp)⟩
    obtain ⟨c, cs, hc, hcd⟩ := hx
    have hcne : c ≠ ']' := by
      intro he
      subst he
      exact absurd hcd (by decide)
    have hbody : ∃ u, natBodyChars (x :: t) ++ rest = c :: u ∧
        natBodyChars (x :: t) ++ rest
          = natBodyChars (x :: t) ++ rest := by
      cases t with
      | nil =>
        refine ⟨cs ++ [']'] ++ rest, ?_, rfl⟩
        simp [natBodyChars, hc]
      | cons y u =>
        refine ⟨cs ++ [','] ++ (natBodyChars (y :: u) ++ rest), ?_, rfl⟩
        simp [natBodyChars, hc]
    obtain ⟨u, hu, -⟩ := hbody
    have hlen : (x :: t).length ≤ (natBodyChars (x :: t) ++ rest).length + 1 := by
      have := natBody_length (x :: t)
      simp only [List.length_append]
      omega
    simp only [natListChars, List.append_assoc, List.cons_append,
      List.nil_append]
    simp only [parseNatList, stripLit1]
    rw [hu, stripLit_single_ne ']' c _ hcne, ← hu]
    exact parseNatsAux_encode (x :: t) (by simp) _ hlen rest

/-- The character after the first hello field is the comma opening the
second field, not a digit. -/
theorem helloBody2_boundary (X : List Char) :
    ∀ c, (litHelloBody2 ++ X).head? = some c → c.isDigit = false := by
  intro c hc
  have h := head_append_of_head litHelloBody2 X ',' (by decide)
  rw [h] at hc
  injection hc with h2
  subst h2
  decide

/-- The character after the last field is the closing brace, not a digit. -/
theorem litEnd_boundary (X : List Char) :
    ∀ c, (litEnd ++ X).head? = some c → c.isDigit = false := by
  intro c hc
  have h := head_append_of_head litEnd X rbrace (by decide)
  rw [h] at hc
  injection hc with h2
  subst h2
  decide

/-- parseHelloFields inverts the hello payload encoding. -/
theorem parseHelloFields_encode (a b : Nat) (tail : List Char) :
    parseHelloFields (litHelloBody1 ++ (natChars a ++ (litHelloBody2
        ++ (natChars b ++ (litEnd ++ tail))))) = some ((a, b), tail) := by
  have e1 := stripLit_self litHelloBody1
    (natChars a ++ (litHelloBody2 ++ (natChars b ++ (litEnd ++ tail))))
  have e2 := parseNatChars_encode a
    (litHelloBody2 ++ (natChars b ++ (litEnd ++ tail)))
    (helloBody2_boundary _)
  have e3 := stripLit_self litHelloBody2 (natChars b ++ (litEnd ++ tail))
  have e4 := parseNatChars_encode b (litEnd ++ tail) (litEnd_boundary _)
  have e5 := stripLit_self litEnd tail
  simp only [parseHelloFields, e1, e2, e3, e4, e5]

/-- parseListField inverts the single-array payload encoding. -/
theorem parseListField_encode (opener : List Char) (l : List Nat)
    (tail : List Char) :
    parseListField opener (opener ++ (natListChars l ++ (litEnd ++ tail)))
      = some (l, tail) := by
  have e1 := stripLit_self opener (natListChars l ++ (litEnd ++ tail))
  have e2 := parseNatList_encode l (litEnd ++ tail)
  have e3 := stripLit_self litEnd tail
  simp only [parseListField, e1, e2, e3]

/-- Generic boundary fact: an append whose left literal starts with a
known non-digit character never begins with a digit. -/
theorem lit_head_boundary (lit X : List Char) (a : Char)
    (ha : lit.head? = some a) (hd : a.isDigit = false) :
    ∀ c, (lit ++ X).head? = some c → c.isDigit = false := by
  intro c hc
  have h := head_append_of_head lit X a ha
  rw [h] at hc
  injection hc with h2
  subst h2
  exact hd

/-- parseReqSigsSenderFields inverts the ReqContractSigsForSender payload
encoding. -/
theorem parseReqSigsSenderFields_encode (txs : List Nat) (hv lt : Nat)
    (tail : List Char) :
    parseReqSigsSenderFields (litTxsInfoBody1 ++ (natListChars txs
        ++ (litHashvalueBody ++ (natChars hv ++ (litLocktimeBody
        ++ (natChars lt ++ (litEnd ++ tail)))))))
      = some ((txs, hv, lt), tail) := by
  have e1 := parseNatChars_encode hv
    (litLocktimeBody ++ (natChars lt ++ (litEnd ++ tail)))
    (lit_head_boundary litLocktimeBody _ ',' (by decide) (by decide))
  have e2 := parseNatChars_encode lt (litEnd ++ tail)
    (lit_head_boundary litEnd tail rbrace (by decide) (by decide))
  simp only [parseReqSigsSenderFields, stripLit_self, parseNatList_encode,
    e1, e2]

/-- parseProofOfFundingFields inverts the RespProofOfFunding payload
encoding. -/
theorem parseProofOfFundingFields_encode (txes info : List Nat)
    (nlt nfr : Nat) (tail : List Char) :
    parseProofOfFundingFields (litFundingBody1 ++ (natListChars txes
        ++ (litNextInfoBody ++ (natListChars info ++ (litNextLocktimeBody
        ++ (natChars nlt ++ (litNextFeeRateBody ++ (natChars nfr
        ++ (litEnd ++ tail)))))))))
      = some ((txes, info, nlt, nfr), tail) := by
  have e1 := parseNatChars_encode nlt
    (litNextFeeRateBody ++ (natChars nfr ++ (litEnd ++ tail)))
    (lit_head_boundary litNextFeeRateBody _ ',' (by decide) (by decide))
  have e2 := parseNatChars_encode nfr (litEnd ++ tail)
    (lit_head_boundary litEnd tail rbrace (by decide) (by decide))
  simp only [parseProofOfFundingFields, stripLit_self, parseNatList_encode,
    e1, e2]

/-- parseHashPreimageFields inverts the RespHashPreimage payload
encoding. -/
theorem parseHashPreimageFields_encode (srs rrs p : List Nat)
    (tail : List Char) :
    parseHashPreimageFields (litSendersRsBody1 ++ (natListChars srs
        ++ (litReceiversRsBody ++ (natListChars rrs ++ (litPreimageBody
        ++ (natListChars p ++ (litEnd ++ tail)))))))
      = some ((srs, rrs, p), tail) := by
  simp only [parseHashPreimageFields, stripLit_self, parseNatList_encode]

/-- parseRecvrSenderFields inverts the ReqContractSigsAsRecvrAndSender
payload encoding. -/
theorem parseRecvrSenderFields_encode (rct sct : List Nat)
    (tail : List Char) :
    parseRecvrSenderFields (litRecvrTxsBody1 ++ (natListChars rct
        ++ (litSendersTxsBody ++ (natListChars sct ++ (litEnd ++ tail)))))
      = some ((rct, sct), tail) := by
  simp only [parseRecvrSenderFields, stripLit_self, parseNatList_encode]

/-- Variant-tag boundary: the tag characters all differ from the closing
quote, and the remainder starts with the quote. -/
theorem tag_split (tag : List Char) (P : List Char)
    (htag : ∀ c ∈ tag, (c != '"') = true) :
    (tag ++ '"' :: ':' :: P).takeWhile (fun c => c != '"') = tag ∧
    (tag ++ '"' :: ':' :: P).dropWhile (fun c => c != '"') = '"' :: ':' :: P := by
  constructor
  · refine takeWhile_append_eq _ _ _ htag ?_
    intro c hc
    simp only [List.head?_cons, Option.some.injEq] at hc
    subst hc
    decide
  · refine dropWhile_append_eq _ _ _ htag ?_
    intro c hc
    simp only [List.head?_cons, Option.some.injEq] at hc
    subst hc
    decide

/-- decodeMBody inverts encodeM on every Maker-to-Taker message. -/
theorem decodeMBody_encode (m : MakerToTakerMessage) (tail : List Char) :
    decodeMBody (encodeM m ++ tail) = some (m, tail) := by
  cases m with
  | MakerHello a b =>
    obtain ⟨tw, dw⟩ := tag_split litHelloTag
      (litHelloBody1 ++ (natChars a ++ (litHelloBody2
        ++ (natChars b ++ (litEnd ++ tail))))) (by decide)
    simp only [encodeM, List.append_assoc, List.cons_append, List.nil_append]
    simp only [decodeMBody, stripLit2, tw, dw, if_pos rfl,
      parseHelloFields_encode]
    simp
  | RespContractSigsForSender sigs =>
    obtain ⟨tw, dw⟩ := tag_split litSigsTag
      (litSigsBody1 ++ (natListChars sigs ++ (litEnd ++ tail))) (by decide)
    simp only [encodeM, List.append_assoc, List.cons_append, List.nil_append]
    simp only [decodeMBody, stripLit2, tw, dw,
      if_neg (by decide : ¬ (litSigsTag = litHelloTag)), if_pos rfl,
      parseListField_encode]
    simp
  | ReqContractSigsAsRecvrAndSender rct sct =>
    obtain ⟨tw, dw⟩ := tag_split litRecvrSenderTag
      (litRecvrTxsBody1 ++ (natListChars rct ++ (litSendersTxsBody
        ++ (natListChars sct ++ (litEnd ++ tail))))) (by decide)
    simp only [encodeM, List.append_assoc, List.cons_append, List.nil_append]
    simp only [decodeMBody, stripLit2, tw, dw,
      if_neg (by decide : ¬ (litRecvrSenderTag = litHelloTag)),
      if_neg (by decide : ¬ (litRecvrSenderTag = litSigsTag)), if_pos rfl,
      parseRecvrSenderFields_encode]
    simp
  | RespPrivKeyHandover ks =>
    obtain ⟨tw, dw⟩ := tag_split litKeysTag
      (litKeysBody1 ++ (natListChars ks ++ (litEnd ++ tail))) (by decide)
    simp only [encodeM, List.append_assoc, List.cons_append, List.nil_append]
    simp only [decodeMBody, stripLit2, tw, dw,
      if_neg (by decide : ¬ (litKeysTag = litHelloTag)),
      if_neg (by decide : ¬ (litKeysTag = litSigsTag)),
      if_neg (by decide : ¬ (litKeysTag = litRecvrSenderTag)), if_pos rfl,
      parseListField_encode]
    simp

/-- decodeTBody inverts encodeT on every Taker-to-Maker message. -/
theorem decodeTBody_encode (m : TakerToMakerMessage) (tail : List Char) :
    decodeTBody (encodeT m ++ tail) = some (m, tail) := by
  cases m with
  | TakerHello a b =>
    obtain ⟨tw, dw⟩ := tag_split litTakerHelloTag
      (litHelloBody1 ++ (natChars a ++ (litHelloBody2
        ++ (natChars b ++ (litEnd ++ tail))))) (by decide)
    simp only [encodeT, List.append_assoc, List.cons_append, List.nil_append]
    simp only [decodeTBody, stripLit2, tw, dw, if_pos rfl,
      parseHelloFields_encode]
    simp
  | ReqContractSigsForSender txs hv lt =>
    obtain ⟨tw, dw⟩ := tag_split litReqSigsSenderTag
      (litTxsInfoBody1 ++ (natListChars txs ++ (litHashvalueBody
        ++ (natChars hv ++ (litLocktimeBody ++ (natChars lt
        ++ (litEnd ++ tail))))))) (by decide)
    simp only [encodeT, List.append_assoc, List.cons_append, List.nil_append]
    simp only [decodeTBody, stripLit2, tw, dw,
      if_neg (by decide : ¬ (litReqSigsSenderTag = litTakerHelloTag)),
      if_pos rfl, parseReqSigsSenderFields_encode]
    simp
  | RespProofOfFunding txes info nlt nfr =>
    obtain ⟨tw, dw⟩ := tag_split litProofOfFundingTag
      (litFundingBody1 ++ (natListChars txes ++ (litNextInfoBody
        ++ (natListChars info ++ (litNextLocktimeBody ++ (natChars nlt
        ++ (litNextFeeRateBody ++ (natChars nfr
        ++ (litEnd ++ tail))))))))) (by decide)
    simp only [encodeT, List.append_assoc, List.cons_append, List.nil_append]
    simp only [decodeTBody, stripLit2, tw, dw,
      if_neg (by decide : ¬ (litProofOfFundingTag = litTakerHelloTag)),
      if_neg (by decide : ¬ (litProofOfFundingTag = litReqSigsSenderTag)),
      if_pos rfl, parseProofOfFundingFields_encode]
    simp
  | RespHashPreimage srs rrs p =>
    obtain ⟨tw, dw⟩ := tag_split litPreimageTag
      (litSendersRsBody1 ++ (natListChars srs ++ (litReceiversRsBody
        ++ (natListChars rrs ++ (litPreimageBody ++ (natListChars p
        ++ (litEnd ++ tail))))))) (by decide)
    simp only [encodeT, List.append_assoc, List.cons_append, List.nil_append]
    simp only [decodeTBody, stripLit2, tw, dw,
      if_neg (by decide : ¬ (litPreimageTag = litTakerHelloTag)),
      if_neg (by decide : ¬ (litPreimageTag = litReqSigsSenderTag)),
      if_neg (by decide : ¬ (litPreimageTag = litProofOfFundingTag)),
      if_pos rfl, parseHashPreimageFields_encode]
    simp

/-- Every encoded message starts with the opening brace. -/
theorem encodeM_head (m : MakerToTakerMessage) :
    ∃ t, encodeM m = lbrace :: t := by
  cases m <;> exact ⟨_, rfl⟩

/-- Every encoded taker message starts with the opening brace. -/
theorem encodeT_head (m : TakerToMakerMessage) :
    ∃ t, encodeT m = lbrace :: t := by
  cases m <;> exact ⟨_, rfl⟩

/-- Modelled serde_json::from_str inverts the serialization of a
Maker-to-Taker message followed by the newline read_line leaves in the
buffer. -/
theorem serde_maker_roundtrip (m : MakerToTakerMessage) :
    serde_from_str_maker (encodeM m ++ ['\n']) = some m := by
  obtain ⟨t, ht⟩ := encodeM_head m
  have hd : (encodeM m ++ ['\n']).dropWhile isWsChar = encodeM m ++ ['\n'] := by
    rw [ht]
    simp only [List.cons_append, List.dropWhile_cons,
      (by decide : isWsChar lbrace = false)]
    simp
  simp only [serde_from_str_maker, hd, decodeMBody_encode]
  simp [(by decide : (['\n'].all isWsChar) = true)]

/-- Modelled serde_json::from_str inverts the serialization of a
Taker-to-Maker message followed by the newline. -/
theorem serde_taker_roundtrip (m : TakerToMakerMessage) :
    serde_from_str_taker (encodeT m ++ ['\n']) = some m := by
  obtain ⟨t, ht⟩ := encodeT_head m
  have hd : (encodeT m ++ ['\n']).dropWhile isWsChar = encodeT m ++ ['\n'] := by
    rw [ht]
    simp only [List.cons_append, List.dropWhile_cons,
      (by decide : isWsChar lbrace = false)]
    simp
  simp only [serde_from_str_taker, hd, decodeTBody_encode]
  simp [(by decide : (['\n'].all isWsChar) = true)]

/-- A successful mapOption relates outputs to inputs pointwise. -/
theorem mapOption_forall₂ {α β : Type} (f : α → Option β) :
    ∀ (l : List α) (l' : List β), mapOption f l = some l' →
      List.Forall₂ (fun b a => f a = some b) l' l := by
  intro l
  induction l with
  | nil =>
    intro l' h
    simp only [mapOption, Option.some.injEq] at h
    subst h
    exact List.Forall₂.nil
  | cons a as ih =>
    intro l' h
    simp only [mapOption] at h
    cases hfa : f a with
    | none => rw [hfa] at h; simp at h
    | some b =>
      cases hrec : mapOption f as with
      | none => rw [hfa, hrec] at h; simp at h
      | some bs =>
        rw [hfa, hrec] at h
        simp only [Option.some.injEq] at h
        subst h
        exact List.Forall₂.cons hfa (ih bs hrec)

/-- sign_inputs preserves any pointwise relation that ignores the witness
field. -/
theorem forall₂_sign_inputs {γ : Type} (sigFor : Nat → List Nat)
    (P : TxInM → γ → Prop)
    (hP : ∀ t g ws, P t g → P { t with witness := ws } g) :
    ∀ (i : Nat) (l : List TxInM) (m : List γ),
      List.Forall₂ P l m → List.Forall₂ P (sign_inputs sigFor i l) m := by
  intro i l m h
  induction h generalizing i with
  | nil => simp [sign_inputs]
  | cons ha _ ih =>
    simp only [sign_inputs]
    exact List.Forall₂.cons (hP _ _ _ ha) (ih (i + 1))

/-- The input built from a matched coin satisfies the sequence
specification. -/
theorem seqSpec_of_built (w : WalletM)
    (m : OutPointM × UnspentEntry × UTXOSpendInfo) (t : TxInM)
    (h : (input_sequence w m.2.2).map
        (fun s => ({ previous_output := m.1, sequence := s, witness := [],
                     script_sig := 0 } : TxInM)) = some t) :
    seqSpec w t m := by
  obtain ⟨op, e, info⟩ := m
  cases info with
  | TimelockContract rs iv =>
    simp only [input_sequence, Option.map_map] at h
    cases hf : find_outgoing_swapcoin w rs with
    | none => rw [hf] at h; simp at h
    | some sc =>
      rw [hf] at h
      simp only [Option.map_some', Option.some.injEq, Function.comp] at h
      exact ⟨sc, hf, by rw [← h]⟩
  | HashlockContract rs iv =>
    simp only [input_sequence, Option.map_some', Option.some.injEq] at h
    simp only [seqSpec]
    rw [← h]
  | SeedCoin p iv =>
    simp only [input_sequence, Option.map_some', Option.some.injEq] at h
    simp only [seqSpec]
    rw [← h]
  | SwapCoin rs =>
    simp only [input_sequence, Option.map_some', Option.some.injEq] at h
    simp only [seqSpec]
    rw [← h]
  | FidelityBondCoin s iv =>
    simp only [input_sequence, Option.map_some', Option.some.injEq] at h
    simp only [seqSpec]
    rw [← h]

/-- seqSpec does not depend on the witness field. -/
theorem seqSpec_witness_irrel (w : WalletM) (t : TxInM)
    (g : OutPointM × UnspentEntry × UTXOSpendInfo) (ws : List Nat)
    (h : seqSpec w t g) : seqSpec w { t with witness := ws } g := by
  obtain ⟨op, e, info⟩ := g
  cases info <;> simpa [seqSpec] using h

/-- C1 counterexample: with one swapcoin and zero handed-over keys the key
count differs from the swapcoin count, yet check_and_apply_maker_private_keys
returns Ok instead of the Protocol error the claim requires. -/
theorem check_and_apply_count_mismatch_ok :
    (check_and_apply_maker_private_keys (apply_privkey id)
        [({ other_pubkey := 5, my_privkey := none } : IncomingSwapCoinM)]
        ([] : List Nat)).1 = Except.ok ()
    ∧ [({ other_pubkey := 5, my_privkey := none } : IncomingSwapCoinM)].length
        ≠ ([] : List Nat).length := by
  exact ⟨rfl, by decide⟩

/-- C1 (amended): check_and_apply_maker_private_keys performs no count
comparison at all.  Its result is Ok exactly when every pointwise
application over the zip of the two lists (which silently stops at the
shorter list) succeeds, and the Protocol "wrong privkey" error otherwise;
surplus keys or surplus swapcoins are ignored. -/
theorem check_and_apply_ok_iff_zip_all {S K : Type} (app : S → K → Option S)
    (coins : List S) (keys : List K) :
    (check_and_apply_maker_private_keys app coins keys).1 =
      (if (coins.zip keys).all (fun ck => (app ck.1 ck.2).isSome)
       then Except.ok ()
       else Except.error (TeleportError.Protocol "wrong privkey")) := by
  induction coins generalizing keys with
  | nil => simp [check_and_apply_maker_private_keys]
  | cons c cs ih =>
    cases keys with
    | nil => simp [check_and_apply_maker_private_keys]
    | cons k ks =>
      cases h : app c k with
      | none => simp [check_and_apply_maker_private_keys, h]
      | some c2 =>
        simp only [check_and_apply_maker_private_keys, h, List.zip_cons_cons,
          List.all_cons, Option.isSome_some, Bool.true_and]
        exact ih ks

/-- C2 counterexample: two swapcoins, the first key correct and the second
wrong.  The call errors, but the first swapcoin has already been mutated
(its private key applied), so the list after the call differs from the
list before it. -/
theorem check_and_apply_error_mutates_prefix_cex :
    (check_and_apply_maker_private_keys (apply_privkey id)
        [({ other_pubkey := 0, my_privkey := none } : IncomingSwapCoinM),
         { other_pubkey := 5, my_privkey := none }] [0, 99]).1
      = Except.error (TeleportError.Protocol "wrong privkey")
    ∧ (check_and_apply_maker_private_keys (apply_privkey id)
        [({ other_pubkey := 0, my_privkey := none } : IncomingSwapCoinM),
         { other_pubkey := 5, my_privkey := none }] [0, 99]).2
      ≠ [{ other_pubkey := 0, my_privkey := none },
         { other_pubkey := 5, my_privkey := none }] := by
  exact ⟨rfl, by decide⟩

/-- C2 (amended): when check_and_apply_maker_private_keys fails there is a
failing index i: the key at i does not apply to the swapcoin at i, every
swapcoin from position i on is left exactly as it was, and every swapcoin
before i has already been replaced by its successfully-applied update.  In
particular the state is unchanged only when the first zipped key already
fails. -/
theorem check_and_apply_error_partial_mutation {S K : Type}
    (app : S → K → Option S) (coins : List S) (keys : List K)
    (h : (check_and_apply_maker_private_keys app coins keys).1 ≠ Except.ok ()) :
    ∃ i, i < coins.length ∧ i < keys.length ∧
      (∃ ci ki, coins[i]? = some ci ∧ keys[i]? = some ki ∧ app ci ki = none) ∧
      (check_and_apply_maker_private_keys app coins keys).2.drop i
        = coins.drop i ∧
      ∀ j, j < i → ∃ cj kj c2, coins[j]? = some cj ∧ keys[j]? = some kj ∧
        app cj kj = some c2 ∧
        (check_and_apply_maker_private_keys app coins keys).2[j]? = some c2 := by
  induction coins generalizing keys with
  | nil => exact absurd rfl h
  | cons c cs ih =>
    cases keys with
    | nil => exact absurd rfl h
    | cons k ks =>
      cases hk : app c k with
      | none =>
        refine ⟨0, by simp, by simp, ⟨c, k, by simp, by simp, hk⟩, ?_, by omega⟩
        simp [check_and_apply_maker_private_keys, hk]
      | some c2 =>
        have h' : (check_and_apply_maker_private_keys app cs ks).1
            ≠ Except.ok () := by
          intro he
          apply h
          simp [check_and_apply_maker_private_keys, hk, he]
        obtain ⟨i, hic, hik, ⟨ci, ki, hci, hki, hfail⟩, hdrop, hpre⟩ := ih ks h'
        refine ⟨i + 1, by simpa using Nat.succ_lt_succ hic,
          by simpa using Nat.succ_lt_succ hik,
          ⟨ci, ki, by simpa using hci, by simpa using hki, hfail⟩, ?_, ?_⟩
        · simp [check_and_apply_maker_private_keys, hk, hdrop]
        · intro j hj
          cases j with
          | zero =>
            exact ⟨c, k, c2, by simp, by simp, hk,
              by simp [check_and_apply_maker_private_keys, hk]⟩
          | succ j' =>
            obtain ⟨cj, kj, c3, hcj, hkj, happ, hres⟩ :=
              hpre j' (Nat.lt_of_succ_lt_succ hj)
            exact ⟨cj, kj, c3, by simpa using hcj, by simpa using hkj, happ,
              by simpa [check_and_apply_maker_private_keys, hk] using hres⟩

/-- C2 witness: the amended statement instantiated at the two-coin fixture
where the second key is wrong. -/
theorem check_and_apply_error_partial_mutation_inst :
    (check_and_apply_maker_private_keys (apply_privkey id)
        [({ other_pubkey := 0, my_privkey := none } : IncomingSwapCoinM),
         { other_pubkey := 5, my_privkey := none }] [0, 99]).1 ≠ Except.ok ()
    ∧ ∃ i, i < 2 ∧ i < 2 ∧
      (∃ ci ki, [({ other_pubkey := 0, my_privkey := none } : IncomingSwapCoinM),
          { other_pubkey := 5, my_privkey := none }][i]? = some ci ∧
        [0, 99][i]? = some ki ∧ apply_privkey id ci ki = none) ∧
      (check_and_apply_maker_private_keys (apply_privkey id)
        [({ other_pubkey := 0, my_privkey := none } : IncomingSwapCoinM),
         { other_pubkey := 5, my_privkey := none }] [0, 99]).2.drop i
        = [({ other_pubkey := 0, my_privkey := none } : IncomingSwapCoinM),
           { other_pubkey := 5, my_privkey := none }].drop i ∧
      ∀ j, j < i → ∃ cj kj c2,
        [({ other_pubkey := 0, my_privkey := none } : IncomingSwapCoinM),
         { other_pubkey := 5, my_privkey := none }][j]? = some cj ∧
        [0, 99][j]? = some kj ∧ apply_privkey id cj kj = some c2 ∧
        (check_and_apply_maker_private_keys (apply_privkey id)
          [({ other_pubkey := 0, my_privkey := none } : IncomingSwapCoinM),
           { other_pubkey := 5, my_privkey := none }] [0, 99]).2[j]?
          = some c2 := by
  refine ⟨by decide, ?_⟩
  simpa using check_and_apply_error_partial_mutation (apply_privkey id)
    [({ other_pubkey := 0, my_privkey := none } : IncomingSwapCoinM),
     { other_pubkey := 5, my_privkey := none }] [0, 99] (by decide)

/-- C3 counterexample: at absolute_fee 0, amount_relative_fee_ppb 2^32,
time parameters 0, amount 2^32, the u64 product amount *
amount_relative_fee_ppb wraps to 0, so the function does not equal the
exact-arithmetic formula of the claim. -/
theorem calculate_coinswap_fee_overflow_cex :
    calculate_coinswap_fee 0 (2 ^ 32) 0 (2 ^ 32) 0
      ≠ 0 + 2 ^ 32 * (2 ^ 32) / 1000000000 + 0 * 0 / 1000000000 := by
  decide

/-- C3 (amended): calculate_coinswap_fee equals
absolute_fee + amount * amount_ppb / 1e9 + blocks * time_ppb / 1e9 in exact
integer arithmetic whenever the two products and the final sum fit in u64;
in particular it returns 6000 on the spec's test vector. -/
theorem calculate_coinswap_fee_exact_of_no_overflow
    (a apb tpb amt blk : Nat)
    (h1 : amt * apb < U64MOD) (h2 : blk * tpb < U64MOD)
    (h3 : a + amt * apb / 1000000000 + blk * tpb / 1000000000 < U64MOD) :
    calculate_coinswap_fee a apb tpb amt blk
      = a + amt * apb / 1000000000 + blk * tpb / 1000000000 := by
  unfold calculate_coinswap_fee
  rw [Nat.mod_eq_of_lt h1, Nat.mod_eq_of_lt h2, Nat.mod_eq_of_lt h3]

/-- C3 witness: the no-overflow equation applied to the spec's test vector
(1000, 10_000_000, 100_000, 500_000, 1), giving exactly 6000. -/
theorem calculate_coinswap_fee_spec_vector :
    500000 * 10000000 < U64MOD ∧ 1 * 100000 < U64MOD ∧
    1000 + 500000 * 10000000 / 1000000000 + 1 * 100000 / 1000000000 < U64MOD ∧
    calculate_coinswap_fee 1000 10000000 100000 500000 1 = 6000 := by
  refine ⟨by norm_num [U64MOD], by norm_num [U64MOD], by norm_num [U64MOD], ?_⟩
  rw [calculate_coinswap_fee_exact_of_no_overflow 1000 10000000 100000 500000 1
    (by norm_num [U64MOD]) (by norm_num [U64MOD]) (by norm_num [U64MOD])]

/-- C4: with the taker's refund-locktime parameters, the contract locktime
assigned to hop i is the locktime of hop i+1 plus the configured step, and
in particular is strictly greater whenever the step is positive
(spec-modelled hop assignment over the parameters of taker/config.rs). -/
theorem hop_refund_locktime_strict_decrease (cfg : TakerConfig) (n i : Nat)
    (hi : i + 1 ≤ n) (hstep : 0 < cfg.refund_locktime_step) :
    hop_refund_locktime cfg n (i + 1) < hop_refund_locktime cfg n i ∧
    hop_refund_locktime cfg n i
      = hop_refund_locktime cfg n (i + 1) + cfg.refund_locktime_step := by
  unfold hop_refund_locktime
  have h : n - i = (n - (i + 1)) + 1 := by omega
  rw [h, Nat.mul_add, Nat.mul_one]
  constructor
  · exact Nat.add_lt_add_left (Nat.lt_add_of_pos_right hstep) _
  · exact (Nat.add_assoc _ _ _).symm

/-- C4 witness: the default taker configuration (step 48) on a three-hop
route, comparing hops 0 and 1. -/
theorem hop_refund_locktime_default_inst :
    0 + 1 ≤ 3 ∧ 0 < TakerConfig.default.refund_locktime_step ∧
    hop_refund_locktime TakerConfig.default 3 1
      < hop_refund_locktime TakerConfig.default 3 0 ∧
    hop_refund_locktime TakerConfig.default 3 0
      = hop_refund_locktime TakerConfig.default 3 1
        + TakerConfig.default.refund_locktime_step := by
  refine ⟨by decide, by decide,
    (hop_refund_locktime_strict_decrease TakerConfig.default 3 0
      (by decide) (by decide)).1,
    (hop_refund_locktime_strict_decrease TakerConfig.default 3 0
      (by decide) (by decide)).2⟩

/-- C6 counterexample: nonce_gen hands MusigKeyAggCache::new the two
pubkeys in argument order without sorting, so swapping the arguments
changes the ordered key list that determines the aggregated key. -/
theorem nonce_gen_keyagg_order_sensitive :
    nonce_gen_keyagg 0 1 ≠ nonce_gen_keyagg 1 0 := by decide

/-- C6 (amended): partial_signature_gen and musig_signature sort the two
participant pubkeys before aggregation, so their aggregation input is
symmetric in the two keys and the two functions agree with each other;
nonce_gen alone aggregates in argument order. -/
theorem signing_keyagg_sorted_symm (k1 k2 : Nat) :
    partial_signature_gen_keyagg k1 k2 = partial_signature_gen_keyagg k2 k1
    ∧ ∀ (pubOf : Nat → Nat) (sk : Nat),
        musig_signature_keyagg pubOf sk k2
          = partial_signature_gen_keyagg (pubOf sk) k2 := by
  constructor
  · unfold partial_signature_gen_keyagg sort2
    rcases Nat.lt_trichotomy k1 k2 with h | h | h
    · simp [Nat.le_of_lt h, Nat.not_le.mpr h]
    · simp [h]
    · simp [Nat.le_of_lt h, Nat.not_le.mpr h]
  · intro pubOf sk
    rfl

/-- C5: in every transaction create_direct_send builds, the inputs
correspond one-to-one to the matched coins, and each input's sequence
number follows the contract rule: 1 for a hashlock-contract UTXO, the
outgoing swapcoin's timelock for a timelock-contract UTXO, 0 for every
other UTXO. -/
theorem create_direct_send_input_sequences (w : WalletM) (fee_rate : Nat)
    (sa : SendAmount) (dest : Destination) (coins : List CoinToSpend)
    (lur : List (UnspentEntry × UTXOSpendInfo)) (next_external : AddressM)
    (next_internal_spk : Nat) (block_count : Nat) (sigFor : Nat → List Nat)
    (tx : TransactionM)
    (h : create_direct_send w fee_rate sa dest coins lur next_external
        next_internal_spk block_count sigFor = some tx) :
    List.Forall₂ (seqSpec w) tx.input (matched_coins lur coins) := by
  unfold create_direct_send at h
  split at h
  · exact absurd h (by simp)
  · rename_i tx_inputs hm
    split at h
    · exact absurd h (by simp)
    · split at h
      · exact absurd h (by simp)
      · rename_i dest_addr hd
        split at h
        · have hEq := Option.some.inj h
          have hin : tx.input = sign_inputs sigFor 0 tx_inputs := by
            rw [← hEq]
          rw [hin]
          have h2 := mapOption_forall₂ _ _ _ hm
          have h3 : List.Forall₂ (seqSpec w) tx_inputs
              (matched_coins lur coins) :=
            h2.imp (fun {t mm} hfm => seqSpec_of_built w mm t hfm)
          exact forall₂_sign_inputs sigFor (seqSpec w)
            (fun t g ws hp => seqSpec_witness_irrel w t g ws hp) 0 _ _ h3
        · exact absurd h (by simp)

/-- C5 witness: the three-coin fixture (one hashlock contract, one timelock
contract of the known swapcoin, one seed coin) produces the expected
transaction, whose input sequences satisfy the specification. -/
theorem create_direct_send_input_sequences_inst :
    create_direct_send wW 1000 SendAmount.Max
        (Destination.Address { network := NetworkM.Regtest, spk := 5 })
        coinsW lurW { network := NetworkM.Regtest, spk := 3 } 4 100
        (fun _ => []) = some txW
    ∧ List.Forall₂ (seqSpec wW) txW.input (matched_coins lurW coinsW) := by
  refine ⟨by rfl, ?_⟩
  exact create_direct_send_input_sequences wW 1000 SendAmount.Max
    (Destination.Address { network := NetworkM.Regtest, spk := 5 })
    coinsW lurW { network := NetworkM.Regtest, spk := 3 } 4 100
    (fun _ => []) txW (by rfl)

/-- C7 counterexample: a parsed taker config file whose section and all ten
keys are present but one value is not a number makes TakerConfig::init
panic (modelled none), and a parsed maker config file containing only a
section named maker.toml makes MakerConfig::init panic, contradicting the
claim that a present file never causes a panic and that every such file
falls back to defaults. -/
theorem config_init_panics_on_unparseable_value :
    TakerConfig.init (Except.ok [("taker_config", badTakerSection)]) = none
    ∧ MakerConfig.init 6102 "x.onion" (Except.ok [("maker.toml", [])])
      = none := by
  exact ⟨by decide, by decide⟩

/-- C7 (amended): both init functions fall back to their defaults (the
maker's port and onion address coming from the call arguments) when the
config file is missing or unparseable, when the expected section is missing
(for MakerConfig: when no section named maker.toml exists), and when any
expected key is missing; but a file whose section and keys are all present
panics on the first value that fails to parse, and a parsed maker file
with a maker.toml section but no maker_config section panics. -/
theorem config_init_defaults_on_missing :
    TakerConfig.init (Except.error ()) = some TakerConfig.default
    ∧ (∀ secs, sections_get secs "taker_config" = none →
        TakerConfig.init (Except.ok secs) = some TakerConfig.default)
    ∧ (∀ secs sec, sections_get secs "taker_config" = some sec →
        taker_keys.all (fun k => contains_key sec k) = false →
        TakerConfig.init (Except.ok secs) = some TakerConfig.default)
    ∧ (∀ port onion, MakerConfig.init port onion (Except.error ())
        = some (makerDefaultWith port onion))
    ∧ (∀ port onion secs, sections_get secs "maker.toml" = none →
        MakerConfig.init port onion (Except.ok secs)
          = some (makerDefaultWith port onion))
    ∧ (∀ port onion secs s0 sec, sections_get secs "maker.toml" = some s0 →
        sections_get secs "maker_config" = some sec →
        maker_keys.all (fun k => contains_key sec k) = false →
        MakerConfig.init port onion (Except.ok secs)
          = some (makerDefaultWith port onion)) := by
  refine ⟨rfl, ?_, ?_, fun port onion => rfl, ?_, ?_⟩
  · intro secs hs
    simp [TakerConfig.init, hs]
  · intro secs sec hs hk
    simp [TakerConfig.init, hs, hk]
  · intro port onion secs hs
    simp [MakerConfig.init, makerDefaultWith, hs]
  · intro port onion secs s0 sec hs0 hs hk
    simp [MakerConfig.init, makerDefaultWith, hs0, hs, hk]

/-- C7 witness: the amended fallback behavior at concrete inputs: an
unparseable file, a parsed file with no taker_config section, a parsed
taker_config section missing every key, and the maker analogues. -/
theorem config_init_defaults_on_missing_inst :
    TakerConfig.init (Except.error ()) = some TakerConfig.default
    ∧ TakerConfig.init (Except.ok []) = some TakerConfig.default
    ∧ TakerConfig.init (Except.ok [("taker_config", [])])
      = some TakerConfig.default
    ∧ MakerConfig.init 6102 "x.onion" (Except.error ())
      = some (makerDefaultWith 6102 "x.onion")
    ∧ MakerConfig.init 6102 "x.onion" (Except.ok [])
      = some (makerDefaultWith 6102 "x.onion")
    ∧ MakerConfig.init 6102 "x.onion"
        (Except.ok [("maker.toml", []), ("maker_config", [])])
      = some (makerDefaultWith 6102 "x.onion") := by
  refine ⟨config_init_defaults_on_missing.1,
    config_init_defaults_on_missing.2.1 [] (by rfl),
    config_init_defaults_on_missing.2.2.1 [("taker_config", [])] [] (by rfl)
      (by rfl),
    config_init_defaults_on_missing.2.2.2.1 6102 "x.onion",
    config_init_defaults_on_missing.2.2.2.2.1 6102 "x.onion" [] (by rfl),
    config_init_defaults_on_missing.2.2.2.2.2 6102 "x.onion"
      [("maker.toml", []), ("maker_config", [])] [] [] (by rfl) (by rfl)
      (by rfl)⟩

/-- C8 counterexample: an io-level read failure (for example a timeout)
also yields a Network-classified error, although it is not the zero-bytes
connection-reset case the claim says is the only Network source. -/
theorem read_message_network_on_io_error_cex :
    read_message (ReadLineResult.ioError "timed out")
      = Except.error (TeleportError.Network "timed out")
    ∧ ∀ line, ReadLineResult.ioError "timed out" ≠ ReadLineResult.data line := by
  exact ⟨rfl, fun line h => ReadLineResult.noConfusion h⟩

/-- C8 (amended): read_message classifies an io read failure and the
zero-bytes EOF as Network errors (these are the only Network sources on a
delivered line: a Network result on data forces the empty line and the EOF
message), classifies a nonempty line that fails to parse as the Protocol
error json parsing error, never as Network, and returns Ok with the parsed
message on a nonempty line that parses. -/
theorem read_message_classification :
    (∀ e, read_message (ReadLineResult.ioError e)
        = Except.error (TeleportError.Network e))
    ∧ read_message (ReadLineResult.data [])
        = Except.error (TeleportError.Network "EOF")
    ∧ (∀ line e, read_message (ReadLineResult.data line)
        = Except.error (TeleportError.Network e) → line = [] ∧ e = "EOF")
    ∧ (∀ line, line ≠ [] → serde_from_str_maker line = none →
        read_message (ReadLineResult.data line)
          = Except.error (TeleportError.Protocol "json parsing error"))
    ∧ (∀ line m, line ≠ [] → serde_from_str_maker line = some m →
        read_message (ReadLineResult.data line) = Except.ok m) := by
  refine ⟨fun e => rfl, rfl, ?_, ?_, ?_⟩
  · intro line e h
    by_cases hl : line.length = 0
    · refine ⟨List.length_eq_zero.mp hl, ?_⟩
      simp only [read_message, hl, if_pos, Except.error.injEq,
        TeleportError.Network.injEq] at h
      exact h.symm
    · rw [read_message, if_neg hl] at h
      cases hs : serde_from_str_maker line with
      | some m => rw [hs] at h; exact absurd h (by simp)
      | none => rw [hs] at h; exact absurd h (by simp)
  · intro line hl hs
    rw [read_message, if_neg (fun hz => hl (List.length_eq_zero.mp hz)), hs]
  · intro line m hl hs
    rw [read_message, if_neg (fun hz => hl (List.length_eq_zero.mp hz)), hs]

/-- C8 witness: the classification at concrete inputs: an io timeout, the
EOF line, the unparseable line hello, and a parseable MakerHello line. -/
theorem read_message_classification_inst :
    read_message (ReadLineResult.ioError "connection timed out")
      = Except.error (TeleportError.Network "connection timed out")
    ∧ read_message (ReadLineResult.data [])
      = Except.error (TeleportError.Network "EOF")
    ∧ ("hello".toList ≠ [] ∧ serde_from_str_maker "hello".toList = none ∧
       read_message (ReadLineResult.data "hello".toList)
         = Except.error (TeleportError.Protocol "json parsing error"))
    ∧ (encodeM (MakerToTakerMessage.MakerHello 0 0) ++ ['\n'] ≠ [] ∧
       serde_from_str_maker (encodeM (MakerToTakerMessage.MakerHello 0 0)
          ++ ['\n']) = some (MakerToTakerMessage.MakerHello 0 0) ∧
       read_message (ReadLineResult.data
          (encodeM (MakerToTakerMessage.MakerHello 0 0) ++ ['\n']))
         = Except.ok (MakerToTakerMessage.MakerHello 0 0)) := by
  refine ⟨read_message_classification.1 _, read_message_classification.2.1,
    ⟨by decide, by decide,
     read_message_classification.2.2.2.1 _ (by decide) (by decide)⟩,
    ⟨by decide, by decide,
     read_message_classification.2.2.2.2 _ _ (by decide) (by decide)⟩⟩

/-- C9: send_message writes to the stream exactly the serialization of the
message followed by one newline byte, and read_message applied to such a
newline-terminated serialized line returns the original message; likewise
the modelled maker-side parse inverts the taker-side serialization, so
serialize-then-parse is the identity on both wire message types. -/
theorem send_read_roundtrip :
    (∀ stream m, send_message stream m = stream ++ encodeT m ++ ['\n'])
    ∧ (∀ m : MakerToTakerMessage,
        read_message (ReadLineResult.data (encodeM m ++ ['\n']))
          = Except.ok m)
    ∧ (∀ m : TakerToMakerMessage,
        serde_from_str_taker (encodeT m ++ ['\n']) = some m) := by
  refine ⟨fun stream m => by simp [send_message], ?_, serde_taker_roundtrip⟩
  intro m
  have hlen : (encodeM m ++ ['\n']).length ≠ 0 := by simp
  rw [read_message, if_neg hlen, serde_maker_roundtrip]

/-- C10: the MakerConfig returned by a non-panicking MakerConfig::init
always carries the port and onion address given as call arguments,
whatever the parsed file contains. -/
theorem maker_config_init_port_onion_from_args (port : Nat) (onion : String)
    (sections : Except Unit ConfigSections) (cfg : MakerConfig)
    (h : MakerConfig.init port onion sections = some cfg) :
    cfg.port = port ∧ cfg.onion_addrs = onion := by
  cases sections with
  | error e =>
    simp only [MakerConfig.init] at h
    have hEq := Option.some.inj h
    exact ⟨by rw [← hEq], by rw [← hEq]⟩
  | ok secs =>
    simp only [MakerConfig.init] at h
    cases htoml : sections_get secs "maker.toml" with
    | none =>
      simp only [htoml] at h
      have hEq := Option.some.inj h
      exact ⟨by rw [← hEq], by rw [← hEq]⟩
    | some s0 =>
      simp only [htoml] at h
      cases hmc : sections_get secs "maker_config" with
      | none =>
        simp only [hmc] at h
        exact Option.noConfusion h
      | some sec =>
        simp only [hmc] at h
        by_cases hk : (maker_keys.all fun k => contains_key sec k) = true
        · rw [if_pos hk] at h
          repeat split at h
          all_goals
            first
            | exact Option.noConfusion h
            | (have hEq := Option.some.inj h
               exact ⟨by rw [← hEq], by rw [← hEq]⟩)
        · rw [if_neg hk] at h
          have hEq := Option.some.inj h
          exact ⟨by rw [← hEq], by rw [← hEq]⟩

/-- C10 witness: a missing file yields the default configuration with the
argument port and onion address. -/
theorem maker_config_init_port_onion_inst :
    MakerConfig.init 6102 "maker.onion" (Except.error ())
      = some (makerDefaultWith 6102 "maker.onion")
    ∧ (makerDefaultWith 6102 "maker.onion").port = 6102
    ∧ (makerDefaultWith 6102 "maker.onion").onion_addrs = "maker.onion" := by
  refine ⟨rfl, ?_, ?_⟩
  · exact (maker_config_init_port_onion_from_args 6102 "maker.onion"
      (Except.error ()) _ rfl).1
  · exact (maker_config_init_port_onion_from_args 6102 "maker.onion"
      (Except.error ()) _ rfl).2

end Teleport
